import Mathlib

/-!
Shallow embedding of `src/software/pipeline/main_rigLocalization.cpp`
(AliceVision rig-localization pipeline orchestrator).

The embedding models:
* `checkRobustEstimator` — the threshold validation function (source lines 60-90),
  with C++ `double` values modelled as rationals extended with `+infinity`
  (the only operations the source performs on them are exact comparisons
  against the literals `0` and `1e-6`, and the assignment of `infinity`);
* the synchronized per-camera read loop (source lines 445-482) as `readCams` /
  `readFrameSet`;
* the frame loop of `main` (source lines 436-535) as `processFrame` / `runLoop`,
  with the external localization engine (`localizer->localizeRig`, an out-of-scope
  collaborator) abstracted as an oracle `engine : Nat → EngineResult` giving the
  outcome of the engine call of each frame index;
* the statistics accumulator (boost accumulator of count/sum/min/max, line 431)
  as `Stats`;
* the Alembic exporters (rig track plus one track per camera, lines 376-390 and
  502-532) as lists of `ExportEvent`;
* the summary print at lines 537-543 as `mkReport`, produced only on the
  normal-termination path (the mid-stream `return EXIT_FAILURE` statements at
  lines 461 and 471 leave `main` without reaching it).

Camera feeds are modelled as finite lists of frames; `readImage` returning
`false` corresponds to an exhausted (empty) list.  A run with zero cameras is
out of scope (the CLI requires at least one media path); `runLoopFeeds` returns
a dummy completed outcome on an empty feed list and no theorem relies on it.
-/

namespace RigLoc

/-- Robust estimator kinds (`robustEstimation::EROBUST_ESTIMATOR`).  The source
only distinguishes ACRANSAC, LORANSAC and "anything else"; the remaining
constructors stand for the other members of the C++ enum. -/
inductive EROBUST_ESTIMATOR where
  | ROBUST_ESTIMATOR_ACRANSAC
  | ROBUST_ESTIMATOR_RANSAC
  | ROBUST_ESTIMATOR_LSMEDS
  | ROBUST_ESTIMATOR_LORANSAC
  | ROBUST_ESTIMATOR_MAXCONSENSUS
  deriving DecidableEq

/-- A C++ `double` threshold value: a finite rational or `+infinity`
(`std::numeric_limits<double>::infinity()`). -/
inductive DVal where
  | fin (q : ℚ)
  | posInf
  deriving DecidableEq

/-- `<=` on threshold values, matching IEEE comparison for the values the
source manipulates (finite values and `+infinity`). -/
def DVal.le : DVal → DVal → Bool
  | .fin a, .fin b => decide (a ≤ b)
  | _, .posInf => true
  | .posInf, .fin _ => false

/-- `checkRobustEstimator` (source lines 60-90).  Returns `none` where the C++
function returns `false`, and `some value'` where it returns `true` with the
(by-reference) value possibly normalized.  `1e-6` is the `minThreshold`
constant of line 79. -/
def checkRobustEstimator (e : EROBUST_ESTIMATOR) (value : DVal) : Option DVal :=
  if e ≠ .ROBUST_ESTIMATOR_LORANSAC ∧ e ≠ .ROBUST_ESTIMATOR_ACRANSAC then
    none
  else
    let value1 := if value = .fin 0 ∧ e = .ROBUST_ESTIMATOR_ACRANSAC then DVal.posInf else value
    if e = .ROBUST_ESTIMATOR_LORANSAC then
      if value1.le (.fin (1 / 1000000)) then none else some value1
    else
      some value1

/-- The `LocalizerParameters` bundle set up before the frame loop
(source lines 320-367).  Feature preset and angular threshold are abstracted
to tokens; the threshold fields are the ones validated by
`checkRobustEstimator`. -/
structure LocalizerParameters where
  featurePreset : Nat
  refineIntrinsics : Bool
  errorMax : DVal
  resectionEstimator : EROBUST_ESTIMATOR
  matchingEstimator : EROBUST_ESTIMATOR
  matchingError : DVal
  useLocalizeRigNaive : Bool
  angularThreshold : ℚ
  deriving DecidableEq

/-- The startup sequence of `main` relevant to the parameter bundle: the two
`checkRobustEstimator` calls of lines 259-263 (matching first, then resection;
either failure exits with `EXIT_FAILURE` before any frame processing), followed
by the bundle construction of lines 360-367. -/
def configureParams (resectionEstimator matchingEstimator : EROBUST_ESTIMATOR)
    (resectionErrorMax matchingErrorMax : DVal) (preset : Nat)
    (refine naive : Bool) (angular : ℚ) : Option LocalizerParameters :=
  match checkRobustEstimator matchingEstimator matchingErrorMax with
  | none => none
  | some matchingError =>
    match checkRobustEstimator resectionEstimator resectionErrorMax with
    | none => none
    | some errorMax =>
      some ⟨preset, refine, errorMax, resectionEstimator, matchingEstimator,
            matchingError, naive, angular⟩

/-- One element of a camera feed: what one `feeder->readImage` call yields
(grayscale image, intrinsics, and the `hasIntrinsics` flag; image and
intrinsics contents are abstracted to tokens). -/
structure Frame where
  imageId : Nat
  intrinsicsId : Nat
  hasIntrinsics : Bool
  deriving DecidableEq

instance : Inhabited Frame := ⟨⟨0, 0, true⟩⟩

/-- Outcome of the per-camera read loop of one iteration
(source lines 445-476). -/
inductive ReadOutcome where
  | endOfStream
  | desync (idCamera : Nat)
  | missingIntrinsics (idCamera : Nat)
  | ok (frames : List Frame)
  deriving DecidableEq

/-- The per-camera read loop (source lines 445-476), reading one frame from
each feed in camera order starting at camera index `idx`.  An exhausted feed
at camera `0` is end-of-stream (the `break` of line 463); at camera `> 0` it
is the desynchronization failure of lines 456-462; a frame without intrinsics
is the failure of lines 467-472. -/
def readCams (idx : Nat) : List (List Frame) → ReadOutcome
  | [] => .ok []
  | [] :: _ => if 0 < idx then .desync idx else .endOfStream
  | (fr :: _) :: rest =>
    if fr.hasIntrinsics then
      match readCams (idx + 1) rest with
      | .ok fs => .ok (fr :: fs)
      | o => o
    else .missingIntrinsics idx

/-- One synchronized frame-set read: the per-camera loop started at camera 0. -/
def readFrameSet (feeds : List (List Frame)) : ReadOutcome := readCams 0 feeds

/-- One per-camera localization result (`localization::LocalizationResult`),
abstracted to its pose token. -/
structure LocalizationResult where
  poseId : Nat
  deriving DecidableEq

instance : Inhabited LocalizationResult := ⟨⟨0⟩⟩

/-- The outcome of one `localizer->localizeRig` call (source lines 489-494):
the `isLocalized` flag, the rig pose, the per-camera results, and the
wall-clock duration in milliseconds measured around the call
(lines 487, 495-496). -/
structure EngineResult where
  isLocalized : Bool
  rigPoseId : Nat
  results : List LocalizationResult
  durationMs : ℚ
  deriving DecidableEq

/-- The boost accumulator of line 431: count, running sum, running min and
running max of the per-frame durations fed to it. -/
structure Stats where
  count : Nat
  sum : ℚ
  minVal : Option ℚ
  maxVal : Option ℚ
  deriving DecidableEq

def Stats.empty : Stats := ⟨0, 0, none, none⟩

/-- Feeding one sample into the accumulator (the `stats(...)` call of
line 498). -/
def Stats.add (s : Stats) (d : ℚ) : Stats :=
  { count := s.count + 1
    sum := s.sum + d
    minVal := some (match s.minVal with
      | none => d
      | some m => if d ≤ m then d else m)
    maxVal := some (match s.maxVal with
      | none => d
      | some m => if m ≤ d then d else m) }

/-- One event appended to an exporter track: a keyframe
(`addCameraKeyframe`, lines 507 and 517) or a gap marker
(`jumpKeyframe`, lines 525 and 529). -/
inductive ExportEvent where
  | keyframe (poseId : Nat) (frameIndex : Nat)
  | jump
  deriving DecidableEq

def ExportEvent.isGap : ExportEvent → Bool
  | .jump => true
  | .keyframe _ _ => false

/-- The per-camera exporter loop (lines 512-518 and 527-530): camera track `j`
receives the events `g j`.  The index shift mirrors the loop counter. -/
def extendTracks (g : Nat → List ExportEvent) : List (List ExportEvent) → List (List ExportEvent)
  | [] => []
  | t :: ts => (t ++ g 0) :: extendTracks (fun i => g (i + 1)) ts

/-- Loop state of `main`: the counters of lines 419-420, the result log of
line 434, the statistics accumulator of line 431, the exporter tracks of
lines 376-390 and the parameter bundle of lines 320-367. -/
structure RunState where
  frameCounter : Nat
  numLocalizedFrames : Nat
  rigResultPerFrame : List (List LocalizationResult)
  stats : Stats
  rigTrack : List ExportEvent
  camTracks : List (List ExportEvent)
  params : LocalizerParameters
  deriving DecidableEq

/-- The two fatal mid-stream errors (`return EXIT_FAILURE` at lines 461
and 471). -/
inductive AbortError where
  | feedDesync (idCamera : Nat)
  | missingIntrinsics (idCamera : Nat)
  deriving DecidableEq

/-- The summary printed at lines 537-543: localized/attempted counts and
sum, mean, max, min of the accumulated durations (`bacc::mean` is
`sum / count`). -/
structure Report where
  numLocalized : Nat
  numAttempted : Nat
  sumMs : ℚ
  meanMs : ℚ
  maxMs : Option ℚ
  minMs : Option ℚ
  deriving DecidableEq

def mkReport (st : RunState) : Report :=
  ⟨st.numLocalizedFrames, st.frameCounter, st.stats.sum,
   st.stats.sum / (st.stats.count : ℚ), st.stats.maxVal, st.stats.minVal⟩

/-- How a run ends: normal loop termination (reaching the summary print and
falling off `main`, hence exit status 0), or a mid-stream `return
EXIT_FAILURE` carrying the state at the moment of the abort (the summary
print is not reached on this path). -/
inductive RunOutcome where
  | completed (st : RunState) (report : Report)
  | aborted (err : AbortError) (st : RunState)
  deriving DecidableEq

inductive ExitStatus where
  | success
  | failure
  deriving DecidableEq

def RunOutcome.exitStatus : RunOutcome → ExitStatus
  | .completed _ _ => .success
  | .aborted _ _ => .failure

/-- The summary report, when one is printed (only on the normal-termination
path). -/
def RunOutcome.reportOf : RunOutcome → Option Report
  | .completed _ r => some r
  | .aborted _ _ => none

def RunOutcome.finalState : RunOutcome → RunState
  | .completed st _ => st
  | .aborted _ st => st

def RunOutcome.isCompleted : RunOutcome → Bool
  | .completed _ _ => true
  | .aborted _ _ => false

def RunOutcome.isAborted : RunOutcome → Bool
  | .completed _ _ => false
  | .aborted _ _ => true

/-- The loop body after a successful synchronized read (source lines 484-534):
invoke the engine, feed the duration to the accumulator (line 498,
unconditionally), append to the result log (line 500), update the exporters
(lines 502-532) and increment the frame counter (line 534). -/
def processFrame (engine : Nat → EngineResult) (st : RunState) : RunState :=
  let er := engine st.frameCounter
  if er.isLocalized then
    { st with
      frameCounter := st.frameCounter + 1
      numLocalizedFrames := st.numLocalizedFrames + 1
      rigResultPerFrame := st.rigResultPerFrame ++ [er.results]
      stats := st.stats.add er.durationMs
      rigTrack := st.rigTrack ++ [.keyframe er.rigPoseId st.frameCounter]
      camTracks := extendTracks
        (fun j => [.keyframe ((er.results.getD j default).poseId) st.frameCounter])
        st.camTracks }
  else
    { st with
      frameCounter := st.frameCounter + 1
      rigResultPerFrame := st.rigResultPerFrame ++ [er.results]
      stats := st.stats.add er.durationMs
      rigTrack := st.rigTrack ++ [.jump]
      camTracks := extendTracks (fun _ => [.jump]) st.camTracks }

/-- The `while(haveImage)` loop of lines 436-535, with feed 0 held apart so
that the recursion is structural: each fully processed frame consumes one
element of every feed. -/
def runLoop (engine : Nat → EngineResult) : List Frame → List (List Frame) → RunState → RunOutcome
  | [], _, st => .completed st (mkReport st)
  | f0 :: t0, rest, st =>
    match readFrameSet ((f0 :: t0) :: rest) with
    | .endOfStream => .completed st (mkReport st)
    | .desync i => .aborted (.feedDesync i) st
    | .missingIntrinsics i => .aborted (.missingIntrinsics i) st
    | .ok _ => runLoop engine t0 (rest.map (List.drop 1)) (processFrame engine st)

/-- The loop over a full feed list (at least one camera; the empty-feed case
is out of scope and returns a dummy completed outcome). -/
def runLoopFeeds (engine : Nat → EngineResult) (feeds : List (List Frame)) (st : RunState) : RunOutcome :=
  match feeds with
  | [] => .completed st (mkReport st)
  | f0 :: rest => runLoop engine f0 rest st

/-- Initial loop state (lines 418-434): zero counters, empty log, empty
accumulator, freshly initialized exporter tracks (one rig track plus one
track per camera), and the parameter bundle built before the loop. -/
def initState (numCameras : Nat) (params : LocalizerParameters) : RunState :=
  ⟨0, 0, [], Stats.empty, [], List.replicate numCameras [], params⟩

/-- The whole pipeline run from the initial state. -/
def runPipeline (engine : Nat → EngineResult) (params : LocalizerParameters)
    (feeds : List (List Frame)) : RunOutcome :=
  runLoopFeeds engine feeds (initState feeds.length params)

/-- Every frame of every feed carries intrinsics (the "internally calibrated
cameras" assumption of lines 466-472). -/
def allIntrinsicsOK (feeds : List (List Frame)) : Prop :=
  ∀ f ∈ feeds, ∀ fr ∈ f, fr.hasIntrinsics = true

instance (feeds : List (List Frame)) : Decidable (allIntrinsicsOK feeds) := by
  unfold allIntrinsicsOK; infer_instance

/-- Expected exporter event of the rig track at frame `i`. -/
def rigEvent (engine : Nat → EngineResult) (i : Nat) : ExportEvent :=
  if (engine i).isLocalized then .keyframe (engine i).rigPoseId i else .jump

/-- Expected exporter event of camera track `j` at frame `i`. -/
def camEvent (engine : Nat → EngineResult) (j i : Nat) : ExportEvent :=
  if (engine i).isLocalized
  then .keyframe (((engine i).results.getD j default).poseId) i else .jump

/-- Statistics after feeding the durations of frames `s, s+1, ..., s+K-1`. -/
def statsRun (engine : Nat → EngineResult) (s K : Nat) (acc : Stats) : Stats :=
  (List.range' s K).foldl (fun a i => a.add (engine i).durationMs) acc

/-- Number of localized frames among frames `s, ..., s+K-1`. -/
def countLocalized (engine : Nat → EngineResult) (s K : Nat) : Nat :=
  ((List.range' s K).filter fun i => (engine i).isLocalized).length

/-- The state after `K` further fully processed frames from state `st`. -/
def endState (engine : Nat → EngineResult) (K : Nat) (st : RunState) : RunState :=
  { frameCounter := st.frameCounter + K
    numLocalizedFrames := st.numLocalizedFrames + countLocalized engine st.frameCounter K
    rigResultPerFrame :=
      st.rigResultPerFrame ++ (List.range' st.frameCounter K).map fun i => (engine i).results
    stats := statsRun engine st.frameCounter K st.stats
    rigTrack := st.rigTrack ++ (List.range' st.frameCounter K).map (rigEvent engine)
    camTracks := extendTracks
      (fun j => (List.range' st.frameCounter K).map (camEvent engine j)) st.camTracks
    params := st.params }

/-- A concrete frame with intrinsics, for witness runs. -/
def okFrame : Frame := ⟨0, 0, true⟩

/-- A concrete parameter bundle, for witness runs. -/
def params0 : LocalizerParameters :=
  ⟨0, false, .posInf, .ROBUST_ESTIMATOR_ACRANSAC, .ROBUST_ESTIMATOR_ACRANSAC, .posInf, false, 0⟩

/-- A concrete engine trace: durations 10, 20, 30 ms with outcomes localized,
failed, localized on frames 0, 1, 2 (the synthetic run of the statistics
claim), then repeating frame 2's outcome. -/
def engine5 : Nat → EngineResult := fun i =>
  match i with
  | 0 => ⟨true, 100, [⟨10⟩, ⟨11⟩], 10⟩
  | 1 => ⟨false, 0, [⟨20⟩, ⟨21⟩], 20⟩
  | _ => ⟨true, 102, [⟨30⟩, ⟨31⟩], 30⟩

/-- A concrete frame without intrinsics, for witness runs. -/
def badFrame : Frame := ⟨1, 1, false⟩

/-- The implicit loop invariant: the localized-frame counter counts the
recorded frames whose engine call returned `isLocalized = true`, and the
frame counter equals the number of entries appended to the result log. -/
def logInvariant (engine : Nat → EngineResult) (st : RunState) : Prop :=
  st.numLocalizedFrames =
    ((List.range st.frameCounter).filter fun i => (engine i).isLocalized).length ∧
  st.frameCounter = st.rigResultPerFrame.length

instance (engine : Nat → EngineResult) (st : RunState) : Decidable (logInvariant engine st) := by
  unfold logInvariant; infer_instance

theorem headI_mem {α : Type _} [Inhabited α] {l : List α} (h : l ≠ []) : l.headI ∈ l := by
  cases l with
  | nil => exact absurd rfl h
  | cons a t => simp [List.headI]

theorem extendTracks_nilFun : ∀ (ts : List (List ExportEvent)),
    extendTracks (fun _ => []) ts = ts
  | [] => rfl
  | t :: ts => by simp [extendTracks, extendTracks_nilFun ts]

theorem extendTracks_extendTracks (g1 g2 : Nat → List ExportEvent) :
    ∀ ts, extendTracks g2 (extendTracks g1 ts) = extendTracks (fun j => g1 j ++ g2 j) ts
  | [] => rfl
  | t :: ts => by
    simp [extendTracks, List.append_assoc,
      extendTracks_extendTracks (fun i => g1 (i + 1)) (fun i => g2 (i + 1)) ts]

theorem extendTracks_replicate (g : Nat → List ExportEvent) :
    ∀ n, extendTracks g (List.replicate n []) = (List.range n).map g
  | 0 => rfl
  | n + 1 => by
    rw [List.replicate_succ, List.range_succ_eq_map]
    simp [extendTracks, extendTracks_replicate (fun i => g (i + 1)) n, List.map_map]

theorem readCams_ok : ∀ (idx : Nat) (feeds : List (List Frame)),
    (∀ f ∈ feeds, f ≠ [] ∧ f.headI.hasIntrinsics = true) →
    readCams idx feeds = .ok (feeds.map List.headI) := by
  intro idx feeds
  induction feeds generalizing idx with
  | nil => intro _; rfl
  | cons f rest ih =>
    intro h
    obtain ⟨hne, hint⟩ := h f (List.mem_cons_self ..)
    obtain ⟨fr, t, rfl⟩ := List.exists_cons_of_ne_nil hne
    have hfr : fr.hasIntrinsics = true := by simpa [List.headI] using hint
    have hrest := ih (idx + 1) (fun g hg => h g (List.mem_cons_of_mem _ hg))
    simp [readCams, hfr, hrest, List.headI]

theorem readCams_desync : ∀ (good : List (List Frame)) (idx : Nat) (after : List (List Frame)),
    (∀ f ∈ good, f ≠ [] ∧ f.headI.hasIntrinsics = true) →
    0 < idx + good.length →
    readCams idx (good ++ [] :: after) = .desync (idx + good.length) := by
  intro good
  induction good with
  | nil =>
    intro idx after _ hpos
    have hidx : 0 < idx := by simpa using hpos
    simp [readCams, hidx]
  | cons f good ih =>
    intro idx after h hpos
    obtain ⟨hne, hint⟩ := h f (List.mem_cons_self ..)
    obtain ⟨fr, t, rfl⟩ := List.exists_cons_of_ne_nil hne
    have hfr : fr.hasIntrinsics = true := by simpa [List.headI] using hint
    have hrec := ih (idx + 1) after (fun g hg => h g (List.mem_cons_of_mem _ hg)) (by omega)
    simp [readCams, hfr, hrec]
    omega

theorem readCams_missing : ∀ (good : List (List Frame)) (idx : Nat) (fr : Frame)
    (t : List Frame) (after : List (List Frame)),
    (∀ f ∈ good, f ≠ [] ∧ f.headI.hasIntrinsics = true) →
    fr.hasIntrinsics = false →
    readCams idx (good ++ (fr :: t) :: after) = .missingIntrinsics (idx + good.length) := by
  intro good
  induction good with
  | nil =>
    intro idx fr t after _ hfr
    simp [readCams, hfr]
  | cons f good ih =>
    intro idx fr t after h hfr
    obtain ⟨hne, hint⟩ := h f (List.mem_cons_self ..)
    obtain ⟨fr', t', rfl⟩ := List.exists_cons_of_ne_nil hne
    have hfr' : fr'.hasIntrinsics = true := by simpa [List.headI] using hint
    have hrec := ih (idx + 1) fr t after (fun g hg => h g (List.mem_cons_of_mem _ hg)) hfr
    simp [readCams, hfr', hrec]
    omega

theorem processFrame_eq (engine : Nat → EngineResult) (st : RunState) :
    processFrame engine st =
      { frameCounter := st.frameCounter + 1
        numLocalizedFrames :=
          st.numLocalizedFrames + (if (engine st.frameCounter).isLocalized then 1 else 0)
        rigResultPerFrame := st.rigResultPerFrame ++ [(engine st.frameCounter).results]
        stats := st.stats.add (engine st.frameCounter).durationMs
        rigTrack := st.rigTrack ++ [rigEvent engine st.frameCounter]
        camTracks := extendTracks (fun j => [camEvent engine j st.frameCounter]) st.camTracks
        params := st.params } := by
  unfold processFrame rigEvent camEvent
  cases h : (engine st.frameCounter).isLocalized <;> simp [h]

theorem countLocalized_succ (engine : Nat → EngineResult) (s K : Nat) :
    countLocalized engine s (K + 1) =
      (if (engine s).isLocalized then 1 else 0) + countLocalized engine (s + 1) K := by
  unfold countLocalized
  rw [List.range'_succ s K 1]
  by_cases h : (engine s).isLocalized = true <;> simp [h, List.filter_cons] <;> omega

theorem endState_zero (engine : Nat → EngineResult) (st : RunState) :
    endState engine 0 st = st := by
  simp [endState, countLocalized, statsRun, extendTracks_nilFun]

theorem endState_step (engine : Nat → EngineResult) (K : Nat) (st : RunState) :
    endState engine K (processFrame engine st) = endState engine (K + 1) st := by
  rw [processFrame_eq]
  simp only [endState, RunState.mk.injEq]
  refine ⟨by omega, ?_, ?_, ?_, ?_, ?_, trivial⟩
  · rw [countLocalized_succ]
    cases h : (engine st.frameCounter).isLocalized <;> simp [h] <;> omega
  · rw [List.range'_succ st.frameCounter K 1]
    simp [List.append_assoc]
  · unfold statsRun
    rw [List.range'_succ st.frameCounter K 1]
    rfl
  · rw [List.range'_succ st.frameCounter K 1]
    simp [List.append_assoc]
  · rw [extendTracks_extendTracks, List.range'_succ st.frameCounter K 1]
    simp

theorem runLoop_complete (engine : Nat → EngineResult) :
    ∀ (f0 : List Frame) (rest : List (List Frame)) (st : RunState),
    (∀ f ∈ rest, f0.length ≤ f.length) →
    allIntrinsicsOK (f0 :: rest) →
    runLoop engine f0 rest st =
      .completed (endState engine f0.length st) (mkReport (endState engine f0.length st)) := by
  intro f0
  induction f0 with
  | nil =>
    intro rest st _ _
    simp [runLoop, endState_zero]
  | cons fr t0 ih =>
    intro rest st hle hint
    have hread : readFrameSet ((fr :: t0) :: rest) = .ok (((fr :: t0) :: rest).map List.headI) := by
      apply readCams_ok
      intro f hf
      rcases List.mem_cons.mp hf with rfl | hf'
      · refine ⟨by simp, ?_⟩
        simpa [List.headI] using hint _ (List.mem_cons_self ..) fr (List.mem_cons_self ..)
      · have hlen := hle f hf'
        have hne : f ≠ [] := by
          intro hnil
          rw [hnil] at hlen
          simp at hlen
        exact ⟨hne, hint f (List.mem_cons_of_mem _ hf') _ (headI_mem hne)⟩
    have hle' : ∀ f ∈ rest.map (List.drop 1), t0.length ≤ f.length := by
      intro f hf
      obtain ⟨g, hg, rfl⟩ := List.mem_map.mp hf
      have := hle g hg
      simp only [List.length_cons] at this
      simp [List.length_drop]
      omega
    have hint' : allIntrinsicsOK (t0 :: rest.map (List.drop 1)) := by
      intro f hf fr' hfr'
      rcases List.mem_cons.mp hf with rfl | hf'
      · exact hint _ (List.mem_cons_self ..) fr' (List.mem_cons_of_mem _ hfr')
      · obtain ⟨g, hg, rfl⟩ := List.mem_map.mp hf'
        exact hint g (List.mem_cons_of_mem _ hg) fr' (List.drop_subset _ _ hfr')
    simp only [runLoop, hread]
    rw [ih (rest.map (List.drop 1)) (processFrame engine st) hle' hint', endState_step]
    simp

theorem runLoop_preserves (engine : Nat → EngineResult) (P : RunState → Prop)
    (hstep : ∀ st, P st → P (processFrame engine st)) :
    ∀ (f0 : List Frame) (rest : List (List Frame)) (st : RunState),
    P st → P (runLoop engine f0 rest st).finalState := by
  intro f0
  induction f0 with
  | nil =>
    intro rest st h
    simpa [runLoop, RunOutcome.finalState] using h
  | cons fr t0 ih =>
    intro rest st h
    rcases hread : readFrameSet ((fr :: t0) :: rest) with _ | i | i | frames <;>
      simp only [runLoop, hread]
    · simpa [RunOutcome.finalState] using h
    · simpa [RunOutcome.finalState] using h
    · simpa [RunOutcome.finalState] using h
    · exact ih _ _ (hstep st h)

theorem runLoopFeeds_preserves (engine : Nat → EngineResult) (P : RunState → Prop)
    (hstep : ∀ st, P st → P (processFrame engine st))
    (feeds : List (List Frame)) (st : RunState) (h : P st) :
    P (runLoopFeeds engine feeds st).finalState := by
  cases feeds with
  | nil => simpa [runLoopFeeds, RunOutcome.finalState] using h
  | cons f0 rest => exact runLoop_preserves engine P hstep f0 rest st h


theorem runPipeline_complete (engine : Nat → EngineResult) (params : LocalizerParameters)
    (f0 : List Frame) (rest : List (List Frame))
    (hle : ∀ f ∈ rest, f0.length ≤ f.length)
    (hint : allIntrinsicsOK (f0 :: rest)) :
    runPipeline engine params (f0 :: rest) =
      .completed (endState engine f0.length (initState (rest.length + 1) params))
        (mkReport (endState engine f0.length (initState (rest.length + 1) params))) := by
  unfold runPipeline runLoopFeeds
  simp only [List.length_cons]
  exact runLoop_complete engine f0 rest _ hle hint

theorem endState_init (engine : Nat → EngineResult) (K N : Nat) (params : LocalizerParameters) :
    endState engine K (initState N params) =
      ⟨K, countLocalized engine 0 K,
       (List.range K).map (fun i => (engine i).results),
       statsRun engine 0 K Stats.empty,
       (List.range K).map (rigEvent engine),
       (List.range N).map (fun j => (List.range K).map (camEvent engine j)),
       params⟩ := by
  simp [endState, initState, extendTracks_replicate, List.range_eq_range']

theorem range'_zero_concat (n : Nat) : List.range' 0 (n + 1) = List.range' 0 n ++ [n] := by
  rw [List.range'_concat]
  simp

theorem statsRun_zero_succ (engine : Nat → EngineResult) (n : Nat) (acc : Stats) :
    statsRun engine 0 (n + 1) acc = (statsRun engine 0 n acc).add (engine n).durationMs := by
  unfold statsRun
  rw [range'_zero_concat, List.foldl_append]
  rfl

theorem statsRun_count (engine : Nat → EngineResult) :
    ∀ (K s : Nat) (acc : Stats), (statsRun engine s K acc).count = acc.count + K := by
  intro K
  induction K with
  | zero => intro s acc; simp [statsRun]
  | succ n ih =>
    intro s acc
    have hsplit : statsRun engine s (n + 1) acc =
        statsRun engine (s + 1) n (acc.add (engine s).durationMs) := by
      unfold statsRun
      rw [List.range'_succ s n 1]
      rfl
    rw [hsplit, ih]
    simp [Stats.add]
    omega

theorem getD_map_range {α : Type _} (f : Nat → α) (d : α) (K i : Nat) (h : i < K) :
    ((List.range K).map f).getD i d = f i := by
  rw [List.getD_eq_getElem _ _ (by simpa using h)]
  simp

theorem rigEvent_isGap (engine : Nat → EngineResult) (i : Nat) :
    (rigEvent engine i).isGap = true ↔ (engine i).isLocalized = false := by
  unfold rigEvent
  cases h : (engine i).isLocalized <;> simp [h, ExportEvent.isGap]

theorem camEvent_isGap (engine : Nat → EngineResult) (j i : Nat) :
    (camEvent engine j i).isGap = true ↔ (engine i).isLocalized = false := by
  unfold camEvent
  cases h : (engine i).isLocalized <;> simp [h, ExportEvent.isGap]

/-- Claim C1: for N ≥ 1 cameras and a valid configuration where every feed
yields exactly K frames, the frame loop attempts exactly K frames, the result
log `rigResultPerFrame` has exactly K entries — one per attempted frame, in
frame-index order — and feed 0's end-of-stream terminates the loop normally
(completed run, exit status 0) rather than with an error. -/
theorem frameLoop_attempts_all_frames (engine : Nat → EngineResult)
    (params : LocalizerParameters) (K : Nat) (feeds : List (List Frame))
    (hN : feeds ≠ []) (hlen : ∀ f ∈ feeds, f.length = K)
    (hint : allIntrinsicsOK feeds) :
    (runPipeline engine params feeds).isCompleted = true ∧
    (runPipeline engine params feeds).exitStatus = .success ∧
    (runPipeline engine params feeds).finalState.frameCounter = K ∧
    (runPipeline engine params feeds).finalState.rigResultPerFrame =
      (List.range K).map (fun i => (engine i).results) := by
  obtain ⟨f0, rest, rfl⟩ := List.exists_cons_of_ne_nil hN
  have h0 : f0.length = K := hlen f0 (List.mem_cons_self ..)
  have hrun := runPipeline_complete engine params f0 rest
    (fun f hf => le_of_eq (by rw [h0, hlen f (List.mem_cons_of_mem _ hf)])) hint
  rw [hrun, h0, endState_init]
  exact ⟨rfl, rfl, rfl, rfl⟩

theorem frameLoop_attempts_all_frames_witness :
    (runPipeline engine5 params0 [[okFrame, okFrame, okFrame]]).isCompleted = true ∧
    (runPipeline engine5 params0 [[okFrame, okFrame, okFrame]]).exitStatus = .success ∧
    (runPipeline engine5 params0 [[okFrame, okFrame, okFrame]]).finalState.frameCounter = 3 ∧
    (runPipeline engine5 params0 [[okFrame, okFrame, okFrame]]).finalState.rigResultPerFrame =
      (List.range 3).map (fun i => (engine5 i).results) :=
  frameLoop_attempts_all_frames engine5 params0 3 [[okFrame, okFrame, okFrame]]
    (by decide) (by decide) (by decide)

/-- Claim C2: during a synchronized frame-set read, if a feed with index
i > 0 signals end-of-stream while feed 0 did not (the cameras before i,
feed 0 among them, each produced an image with intrinsics this iteration),
the run aborts immediately with the feed-desynchronization error and exit
failure, and the loop state is untouched: no partial frame set is
processed. -/
theorem desync_aborts_immediately (engine : Nat → EngineResult)
    (g0 : List Frame) (gtail after : List (List Frame)) (st : RunState)
    (hgood : ∀ f ∈ g0 :: gtail, f ≠ [] ∧ f.headI.hasIntrinsics = true) :
    runLoopFeeds engine ((g0 :: gtail) ++ [] :: after) st =
      .aborted (.feedDesync (gtail.length + 1)) st ∧
    (runLoopFeeds engine ((g0 :: gtail) ++ [] :: after) st).exitStatus = .failure := by
  obtain ⟨hne, _⟩ := hgood g0 (List.mem_cons_self ..)
  obtain ⟨fr, t, rfl⟩ := List.exists_cons_of_ne_nil hne
  have hread : readFrameSet ((fr :: t) :: (gtail ++ [] :: after)) =
      .desync (gtail.length + 1) := by
    have h := readCams_desync ((fr :: t) :: gtail) 0 after hgood (by simp)
    simpa [readFrameSet] using h
  have hmain : runLoopFeeds engine (((fr :: t) :: gtail) ++ [] :: after) st =
      .aborted (.feedDesync (gtail.length + 1)) st := by
    simp only [List.cons_append, runLoopFeeds, runLoop, hread]
  exact ⟨hmain, by rw [hmain]; rfl⟩

theorem desync_aborts_immediately_witness :
    runLoopFeeds engine5 (([okFrame] :: []) ++ [] :: []) (initState 2 params0) =
      .aborted (.feedDesync 1) (initState 2 params0) ∧
    (runLoopFeeds engine5 (([okFrame] :: []) ++ [] :: []) (initState 2 params0)).exitStatus =
      .failure :=
  desync_aborts_immediately engine5 [okFrame] [] [] (initState 2 params0) (by decide)

/-- Claim C3 counterexample: with feed 0 holding exactly K = 1 frame and
feed 1 still holding data at frame 1, the run terminates normally — completed
with exit status success and 1 log entry — against the claim that it must
abort at frame K with a feed-desynchronization error and a non-zero exit
status. -/
theorem primary_exhausted_counterexample :
    (runPipeline engine5 params0 [[okFrame], [okFrame, okFrame]]).isCompleted = true ∧
    (runPipeline engine5 params0 [[okFrame], [okFrame, okFrame]]).exitStatus = .success ∧
    (runPipeline engine5 params0 [[okFrame], [okFrame, okFrame]]).finalState.rigResultPerFrame.length = 1 := by
  decide

/-- Claim C3 (amended): if feed 0 exhausts at frame K while every other feed
still has at least K frames (in particular when some feed i > 0 still has
data at frame K), the pipeline does not abort: feed 0's end-of-stream
terminates the loop normally at frame K with exit status success, no
feed-desynchronization error is raised, and the result log holds exactly K
entries, for frames 0 through K-1. -/
theorem primary_exhausted_completes (engine : Nat → EngineResult)
    (params : LocalizerParameters) (K : Nat) (f0 : List Frame) (rest : List (List Frame))
    (h0 : f0.length = K) (hrest : ∀ f ∈ rest, K ≤ f.length)
    (hint : allIntrinsicsOK (f0 :: rest)) :
    (runPipeline engine params (f0 :: rest)).isCompleted = true ∧
    (runPipeline engine params (f0 :: rest)).exitStatus = .success ∧
    (runPipeline engine params (f0 :: rest)).finalState.frameCounter = K ∧
    (runPipeline engine params (f0 :: rest)).finalState.rigResultPerFrame =
      (List.range K).map (fun i => (engine i).results) := by
  have hrun := runPipeline_complete engine params f0 rest (fun f hf => h0 ▸ hrest f hf) hint
  rw [hrun, h0, endState_init]
  exact ⟨rfl, rfl, rfl, rfl⟩

theorem primary_exhausted_completes_witness :
    (runPipeline engine5 params0 [[okFrame], [okFrame, okFrame]]).isCompleted = true ∧
    (runPipeline engine5 params0 [[okFrame], [okFrame, okFrame]]).exitStatus = .success ∧
    (runPipeline engine5 params0 [[okFrame], [okFrame, okFrame]]).finalState.frameCounter = 1 ∧
    (runPipeline engine5 params0 [[okFrame], [okFrame, okFrame]]).finalState.rigResultPerFrame =
      (List.range 1).map (fun i => (engine5 i).results) :=
  primary_exhausted_completes engine5 params0 1 [okFrame] [[okFrame, okFrame]]
    (by decide) (by decide) (by decide)

/-- Claim C4: threshold validation — ACRANSAC with threshold exactly 0
succeeds and normalizes the value to +infinity; LORANSAC fails for every
threshold ≤ 1e-6 (in particular 0 and 1e-7) and succeeds leaving the value
unchanged on 1.0; every estimator kind other than ACRANSAC and LORANSAC is
rejected for every threshold value. -/
theorem checkRobustEstimator_spec :
    checkRobustEstimator .ROBUST_ESTIMATOR_ACRANSAC (.fin 0) = some .posInf ∧
    (∀ q : ℚ, q ≤ 1 / 1000000 →
      checkRobustEstimator .ROBUST_ESTIMATOR_LORANSAC (.fin q) = none) ∧
    checkRobustEstimator .ROBUST_ESTIMATOR_LORANSAC (.fin 1) = some (.fin 1) ∧
    (∀ e, e ≠ .ROBUST_ESTIMATOR_ACRANSAC → e ≠ .ROBUST_ESTIMATOR_LORANSAC →
      ∀ v, checkRobustEstimator e v = none) := by
  have h1 : DVal.le (.fin 1) (.fin (1 / 1000000)) = false := by
    rw [show DVal.le (.fin 1) (.fin (1 / 1000000)) = decide ((1 : ℚ) ≤ 1 / 1000000) from rfl,
      decide_eq_false_iff_not]
    norm_num
  refine ⟨by decide, ?_, ?_, ?_⟩
  · intro q hq
    have hcond : DVal.le (.fin q) (.fin (1 / 1000000)) = true := by
      simp only [DVal.le, decide_eq_true_eq]
      exact hq
    simp [-one_div, checkRobustEstimator, hcond]
  · simp [-one_div, checkRobustEstimator, h1]
  · intro e he1 he2 v
    simp [checkRobustEstimator, he1, he2]

theorem checkRobustEstimator_spec_witness :
    checkRobustEstimator .ROBUST_ESTIMATOR_LORANSAC (.fin (1 / 10000000)) = none ∧
    checkRobustEstimator .ROBUST_ESTIMATOR_LORANSAC (.fin 0) = none ∧
    checkRobustEstimator .ROBUST_ESTIMATOR_RANSAC (.fin 4) = none :=
  ⟨checkRobustEstimator_spec.2.1 (1 / 10000000) (by norm_num),
   checkRobustEstimator_spec.2.1 0 (by norm_num),
   checkRobustEstimator_spec.2.2.2 .ROBUST_ESTIMATOR_RANSAC (by decide) (by decide) (.fin 4)⟩

theorem stats_counts_attempted (engine : Nat → EngineResult) (feeds : List (List Frame))
    (st : RunState) (h : st.stats = statsRun engine 0 st.frameCounter Stats.empty) :
    (runLoopFeeds engine feeds st).finalState.stats =
      statsRun engine 0 (runLoopFeeds engine feeds st).finalState.frameCounter Stats.empty := by
  refine runLoopFeeds_preserves engine
    (fun s => s.stats = statsRun engine 0 s.frameCounter Stats.empty) ?_ feeds st h
  intro s hs
  rw [processFrame_eq]
  show s.stats.add (engine s.frameCounter).durationMs =
    statsRun engine 0 (s.frameCounter + 1) Stats.empty
  rw [statsRun_zero_succ, hs]

/-- Claim C5: the measured duration of every attempted frame is fed into the
statistics accumulator whether or not the engine localized the frame, so in a
completed K-frame run the accumulator is exactly the fold of all K attempted
frames' durations and its count is K; and on the synthetic run with durations
10, 20, 30 ms and outcomes localized, failed, localized, the report shows
count 3, localized 2, sum 60 ms, mean 20 ms, min 10 ms, max 30 ms. -/
theorem stats_all_attempted_frames :
    (∀ (engine : Nat → EngineResult) (params : LocalizerParameters) (K : Nat)
      (feeds : List (List Frame)), feeds ≠ [] → (∀ f ∈ feeds, f.length = K) →
      allIntrinsicsOK feeds →
      (runPipeline engine params feeds).finalState.stats = statsRun engine 0 K Stats.empty ∧
      (runPipeline engine params feeds).finalState.stats.count = K) ∧
    (runPipeline engine5 params0 [[okFrame, okFrame, okFrame]]).finalState.stats.count = 3 ∧
    (runPipeline engine5 params0 [[okFrame, okFrame, okFrame]]).finalState.numLocalizedFrames = 2 ∧
    (runPipeline engine5 params0 [[okFrame, okFrame, okFrame]]).reportOf =
      some ⟨2, 3, 60, 20, some 30, some 10⟩ := by
  have hgen : ∀ (engine : Nat → EngineResult) (params : LocalizerParameters) (K : Nat)
      (feeds : List (List Frame)), feeds ≠ [] → (∀ f ∈ feeds, f.length = K) →
      allIntrinsicsOK feeds →
      (runPipeline engine params feeds).finalState.stats = statsRun engine 0 K Stats.empty ∧
      (runPipeline engine params feeds).finalState.stats.count = K := by
    intro engine params K feeds hN hlen hint
    obtain ⟨f0, rest, rfl⟩ := List.exists_cons_of_ne_nil hN
    have h0 : f0.length = K := hlen f0 (List.mem_cons_self ..)
    have hrun := runPipeline_complete engine params f0 rest
      (fun f hf => le_of_eq (by rw [h0, hlen f (List.mem_cons_of_mem _ hf)])) hint
    rw [hrun, h0, endState_init]
    refine ⟨rfl, ?_⟩
    show (statsRun engine 0 K Stats.empty).count = K
    rw [statsRun_count]
    simp [Stats.empty]
  have hrun5 := runPipeline_complete engine5 params0 [okFrame, okFrame, okFrame] []
    (by intro f hf; simp at hf) (by decide)
  have hstats : statsRun engine5 0 3 Stats.empty = ⟨3, 60, some 10, some 30⟩ := by
    norm_num [statsRun, List.range', Stats.add, Stats.empty, engine5]
  have hreport : (runPipeline engine5 params0 [[okFrame, okFrame, okFrame]]).reportOf =
      some ⟨2, 3, 60, 20, some 30, some 10⟩ := by
    rw [hrun5]
    show some (mkReport _) = _
    simp only [List.length_cons, List.length_nil, List.length_eq_zero]
    rw [endState_init]
    simp only [mkReport, hstats]
    norm_num [countLocalized, List.range', List.filter, engine5]
  exact ⟨hgen, by decide, by decide, hreport⟩

theorem stats_all_attempted_frames_witness :
    (runPipeline engine5 params0 [[okFrame, okFrame, okFrame]]).finalState.stats =
      statsRun engine5 0 3 Stats.empty ∧
    (runPipeline engine5 params0 [[okFrame, okFrame, okFrame]]).finalState.stats.count = 3 :=
  stats_all_attempted_frames.1 engine5 params0 3 [[okFrame, okFrame, okFrame]]
    (by decide) (by decide) (by decide)

/-- Claim C6 counterexample: in a run aborted by feed desynchronization after
one attempted frame, the pipeline returns exit failure but reports NO summary
statistics (`reportOf = none`) although one frame's statistics had been
accumulated: the mid-stream `return EXIT_FAILURE` skips the summary print, so
the claim that an aborted run still reports the accumulated statistics fails
on the code. -/
theorem abort_skips_summary_counterexample :
    (runPipeline engine5 params0 [[okFrame, okFrame], [okFrame]]).exitStatus = .failure ∧
    (runPipeline engine5 params0 [[okFrame, okFrame], [okFrame]]).reportOf = none ∧
    (runPipeline engine5 params0 [[okFrame, okFrame], [okFrame]]).finalState.stats.count = 1 := by
  decide

/-- Claim C6 (amended): when the run aborts mid-stream (feed desynchronization
or missing intrinsics), the pipeline returns a failure status immediately and
does NOT report the summary statistics — the summary print is reached only on
normal termination; the statistics accumulated for the frames attempted
before the abort are retained in the final loop state but never reported. -/
theorem abort_returns_failure_without_summary (engine : Nat → EngineResult)
    (params : LocalizerParameters) (feeds : List (List Frame))
    (hab : (runPipeline engine params feeds).isAborted = true) :
    (runPipeline engine params feeds).exitStatus = .failure ∧
    (runPipeline engine params feeds).reportOf = none ∧
    (runPipeline engine params feeds).finalState.stats =
      statsRun engine 0 (runPipeline engine params feeds).finalState.frameCounter
        Stats.empty := by
  have hinv : (runPipeline engine params feeds).finalState.stats =
      statsRun engine 0 (runPipeline engine params feeds).finalState.frameCounter
        Stats.empty :=
    stats_counts_attempted engine feeds (initState feeds.length params) rfl
  cases hout : runPipeline engine params feeds with
  | completed st r =>
    rw [hout] at hab
    exact absurd hab (by simp [RunOutcome.isAborted])
  | aborted err st =>
    rw [hout] at hinv
    exact ⟨rfl, rfl, hinv⟩

theorem abort_returns_failure_without_summary_witness :
    (runPipeline engine5 params0 [[okFrame, okFrame], [okFrame]]).exitStatus = .failure ∧
    (runPipeline engine5 params0 [[okFrame, okFrame], [okFrame]]).reportOf = none ∧
    (runPipeline engine5 params0 [[okFrame, okFrame], [okFrame]]).finalState.stats =
      statsRun engine5 0
        (runPipeline engine5 params0 [[okFrame, okFrame], [okFrame]]).finalState.frameCounter
        Stats.empty :=
  abort_returns_failure_without_summary engine5 params0 [[okFrame, okFrame], [okFrame]]
    (by decide)

/-- Claim C7: in a completed run of K attempted frames (every feed yields K
frames, valid configuration), the exported rig track and every per-camera
track have length K, and position i is a gap marker exactly when frame i's
engine outcome was not-localized — a localized frame contributes one rig
keyframe plus one keyframe per camera, a failed frame one gap marker per
track. -/
theorem gap_alignment (engine : Nat → EngineResult) (params : LocalizerParameters)
    (K : Nat) (feeds : List (List Frame)) (hN : feeds ≠ [])
    (hlen : ∀ f ∈ feeds, f.length = K) (hint : allIntrinsicsOK feeds) :
    (runPipeline engine params feeds).finalState.rigTrack.length = K ∧
    (∀ i, i < K →
      (((runPipeline engine params feeds).finalState.rigTrack.getD i .jump).isGap = true ↔
        (engine i).isLocalized = false)) ∧
    (runPipeline engine params feeds).finalState.camTracks.length = feeds.length ∧
    (∀ j, j < feeds.length →
      ((runPipeline engine params feeds).finalState.camTracks.getD j []).length = K ∧
      (∀ i, i < K →
        ((((runPipeline engine params feeds).finalState.camTracks.getD j []).getD i
            .jump).isGap = true ↔
          (engine i).isLocalized = false))) := by
  obtain ⟨f0, rest, rfl⟩ := List.exists_cons_of_ne_nil hN
  have h0 : f0.length = K := hlen f0 (List.mem_cons_self ..)
  have hrun := runPipeline_complete engine params f0 rest
    (fun f hf => le_of_eq (by rw [h0, hlen f (List.mem_cons_of_mem _ hf)])) hint
  rw [hrun, h0, endState_init]
  simp only [RunOutcome.finalState]
  refine ⟨by simp, ?_, by simp, ?_⟩
  · intro i hi
    rw [getD_map_range _ _ _ _ hi]
    exact rigEvent_isGap engine i
  · intro j hj
    have hj' : j < rest.length + 1 := by simpa using hj
    rw [getD_map_range _ _ _ _ hj']
    refine ⟨by simp, ?_⟩
    intro i hi
    rw [getD_map_range _ _ _ _ hi]
    exact camEvent_isGap engine j i

theorem gap_alignment_witness :
    (runPipeline engine5 params0
      [[okFrame, okFrame, okFrame], [okFrame, okFrame, okFrame]]).finalState.rigTrack.length = 3 ∧
    ((((runPipeline engine5 params0
        [[okFrame, okFrame, okFrame], [okFrame, okFrame, okFrame]]).finalState.rigTrack.getD 1
        .jump).isGap = true) ↔ (engine5 1).isLocalized = false) ∧
    ((((runPipeline engine5 params0
        [[okFrame, okFrame, okFrame], [okFrame, okFrame, okFrame]]).finalState.camTracks.getD 1
        []).getD 1 .jump).isGap = true ↔ (engine5 1).isLocalized = false) := by
  have h := gap_alignment engine5 params0 3
    [[okFrame, okFrame, okFrame], [okFrame, okFrame, okFrame]] (by decide) (by decide) (by decide)
  exact ⟨h.1, h.2.1 1 (by decide), (h.2.2.2 1 (by decide)).2 1 (by decide)⟩

/-- Claim C8: if a feed returns an image for the current frame but reports no
intrinsics for it (the cameras before it, if any, having read successfully),
the run aborts immediately with the missing-intrinsics configuration error
and exit failure, and the loop state is untouched: the localization engine is
not invoked on that frame set. -/
theorem missing_intrinsics_aborts (engine : Nat → EngineResult)
    (good after : List (List Frame)) (fr : Frame) (t : List Frame) (st : RunState)
    (hgood : ∀ f ∈ good, f ≠ [] ∧ f.headI.hasIntrinsics = true)
    (hfr : fr.hasIntrinsics = false) :
    runLoopFeeds engine (good ++ (fr :: t) :: after) st =
      .aborted (.missingIntrinsics good.length) st ∧
    (runLoopFeeds engine (good ++ (fr :: t) :: after) st).exitStatus = .failure := by
  have hread : readFrameSet (good ++ (fr :: t) :: after) =
      .missingIntrinsics good.length := by
    have h := readCams_missing good 0 fr t after hgood hfr
    simpa [readFrameSet] using h
  have hmain : runLoopFeeds engine (good ++ (fr :: t) :: after) st =
      .aborted (.missingIntrinsics good.length) st := by
    cases good with
    | nil =>
      simp only [List.nil_append] at hread ⊢
      simp only [runLoopFeeds, runLoop, hread]
    | cons g0 gtail =>
      obtain ⟨hne, _⟩ := hgood g0 (List.mem_cons_self ..)
      obtain ⟨fr0, t0, rfl⟩ := List.exists_cons_of_ne_nil hne
      simp only [List.cons_append] at hread ⊢
      simp only [runLoopFeeds, runLoop, hread]
  exact ⟨hmain, by rw [hmain]; rfl⟩

theorem missing_intrinsics_aborts_witness :
    runLoopFeeds engine5 ([[okFrame]] ++ (badFrame :: []) :: []) (initState 2 params0) =
      .aborted (.missingIntrinsics 1) (initState 2 params0) ∧
    (runLoopFeeds engine5 ([[okFrame]] ++ (badFrame :: []) :: [])
      (initState 2 params0)).exitStatus = .failure :=
  missing_intrinsics_aborts engine5 [[okFrame]] [] badFrame [] (initState 2 params0)
    (by decide) (by decide)

/-- Claim C9 counterexample: threshold validation accepts the configuration
with resection and matching thresholds -5 under the ACRANSAC estimator, and
the parameter bundle built from it stores the negative value -5 unchanged in
both threshold fields — so the stored thresholds are not always
non-negative. -/
theorem negative_threshold_accepted_counterexample :
    configureParams .ROBUST_ESTIMATOR_ACRANSAC .ROBUST_ESTIMATOR_ACRANSAC
        (.fin (-5)) (.fin (-5)) 0 false false 0 =
      some ⟨0, false, .fin (-5), .ROBUST_ESTIMATOR_ACRANSAC, .ROBUST_ESTIMATOR_ACRANSAC,
            .fin (-5), false, 0⟩ ∧
    DVal.le (.fin 0) (.fin (-5)) = false := by
  decide

/-- Claim C9 (amended): a threshold accepted by validation with the LORANSAC
estimator is left unchanged and satisfies `threshold > 1e-6` (in particular
it is positive); with ACRANSAC the zero sentinel is normalized to +infinity
while every other value — negative values included — passes through
unchanged; and the parameter bundle is built once before the frame loop and
never mutated during it. -/
theorem threshold_validation_amended :
    (∀ v v', checkRobustEstimator .ROBUST_ESTIMATOR_LORANSAC v = some v' →
      v' = v ∧ v'.le (.fin (1 / 1000000)) = false) ∧
    checkRobustEstimator .ROBUST_ESTIMATOR_ACRANSAC (.fin 0) = some .posInf ∧
    (∀ v, v ≠ .fin 0 → checkRobustEstimator .ROBUST_ESTIMATOR_ACRANSAC v = some v) ∧
    (∀ (engine : Nat → EngineResult) (feeds : List (List Frame)) (st : RunState),
      (runLoopFeeds engine feeds st).finalState.params = st.params) := by
  refine ⟨?_, by decide, ?_, ?_⟩
  · intro v v' h
    rcases v with q | _
    · by_cases hq : q ≤ 1 / 1000000
      · exfalso
        have hnone : checkRobustEstimator .ROBUST_ESTIMATOR_LORANSAC (.fin q) = none := by
          have hcond : DVal.le (.fin q) (.fin (1 / 1000000)) = true := by
            simp only [DVal.le, decide_eq_true_eq]
            exact hq
          simp [-one_div, checkRobustEstimator, hcond]
        rw [hnone] at h
        exact Option.noConfusion h
      · have hcond : DVal.le (.fin q) (.fin (1 / 1000000)) = false := by
          simp only [DVal.le, decide_eq_false_iff_not]
          exact hq
        have hsome : checkRobustEstimator .ROBUST_ESTIMATOR_LORANSAC (.fin q) =
            some (.fin q) := by
          simp [-one_div, checkRobustEstimator, hcond]
        rw [hsome] at h
        obtain rfl := Option.some.inj h
        exact ⟨rfl, hcond⟩
    · have hsome : checkRobustEstimator .ROBUST_ESTIMATOR_LORANSAC .posInf =
          some .posInf := by
        simp [checkRobustEstimator, DVal.le]
      rw [hsome] at h
      obtain rfl := Option.some.inj h
      exact ⟨rfl, rfl⟩
  · intro v hv
    simp [checkRobustEstimator, hv]
  · intro engine feeds st
    refine runLoopFeeds_preserves engine (fun s => s.params = st.params) ?_ feeds st rfl
    intro s hs
    rw [processFrame_eq]
    exact hs

theorem threshold_validation_amended_witness :
    ((DVal.fin 1 = .fin 1) ∧ (DVal.fin 1).le (.fin (1 / 1000000)) = false) ∧
    checkRobustEstimator .ROBUST_ESTIMATOR_ACRANSAC (.fin 4) = some (.fin 4) ∧
    (runLoopFeeds engine5 [[okFrame]] (initState 1 params0)).finalState.params =
      (initState 1 params0).params := by
  have hle1 : DVal.le (.fin 1) (.fin (1 / 1000000)) = false := by
    rw [show DVal.le (.fin 1) (.fin (1 / 1000000)) = decide ((1 : ℚ) ≤ 1 / 1000000) from rfl,
      decide_eq_false_iff_not]
    norm_num
  have h1 : checkRobustEstimator .ROBUST_ESTIMATOR_LORANSAC (.fin 1) = some (.fin 1) := by
    simp [-one_div, checkRobustEstimator, hle1]
  exact ⟨threshold_validation_amended.1 (.fin 1) (.fin 1) h1,
    threshold_validation_amended.2.2.1 (.fin 4) (by decide),
    threshold_validation_amended.2.2.2 engine5 [[okFrame]] (initState 1 params0)⟩

/-- Claim C10 (implicit invariant): the property "the localized-frame counter
equals the number of recorded frames whose engine call returned
`isLocalized = true`, and the frame counter equals the number of entries
appended to the result log" holds in the initial state, is preserved by every
loop iteration, and holds in the terminal state of any run; in particular the
localized-frame counter never exceeds the frame counter. -/
theorem localized_counter_invariant (engine : Nat → EngineResult) :
    (∀ (numCameras : Nat) (params : LocalizerParameters),
      logInvariant engine (initState numCameras params)) ∧
    (∀ st, logInvariant engine st → logInvariant engine (processFrame engine st)) ∧
    (∀ (feeds : List (List Frame)) (st : RunState), logInvariant engine st →
      logInvariant engine (runLoopFeeds engine feeds st).finalState ∧
      (runLoopFeeds engine feeds st).finalState.numLocalizedFrames ≤
        (runLoopFeeds engine feeds st).finalState.frameCounter) := by
  have hstep : ∀ st, logInvariant engine st → logInvariant engine (processFrame engine st) := by
    intro st h
    obtain ⟨h1, h2⟩ := h
    rw [processFrame_eq]
    constructor
    · show st.numLocalizedFrames + _ =
        ((List.range (st.frameCounter + 1)).filter fun i => (engine i).isLocalized).length
      rw [List.range_succ, List.filter_append, List.length_append, ← h1]
      cases hloc : (engine st.frameCounter).isLocalized <;>
        simp [hloc, List.filter_cons]
    · show st.frameCounter + 1 = (st.rigResultPerFrame ++ [(engine st.frameCounter).results]).length
      simp [h2]
  have hle : ∀ st, logInvariant engine st → st.numLocalizedFrames ≤ st.frameCounter := by
    intro st h
    obtain ⟨h1, _⟩ := h
    rw [h1]
    calc ((List.range st.frameCounter).filter fun i => (engine i).isLocalized).length
        ≤ (List.range st.frameCounter).length := List.length_filter_le _ _
      _ = st.frameCounter := List.length_range st.frameCounter
  refine ⟨fun n params => ⟨rfl, rfl⟩, hstep, ?_⟩
  intro feeds st h
  have hfin := runLoopFeeds_preserves engine (logInvariant engine) hstep feeds st h
  exact ⟨hfin, hle _ hfin⟩

theorem localized_counter_invariant_witness :
    logInvariant engine5 (initState 1 params0) ∧
    logInvariant engine5
      (runLoopFeeds engine5 [[okFrame, okFrame, okFrame]] (initState 1 params0)).finalState ∧
    (runLoopFeeds engine5 [[okFrame, okFrame, okFrame]]
        (initState 1 params0)).finalState.numLocalizedFrames ≤
      (runLoopFeeds engine5 [[okFrame, okFrame, okFrame]]
        (initState 1 params0)).finalState.frameCounter := by
  have h0 := (localized_counter_invariant engine5).1 1 params0
  have h2 := (localized_counter_invariant engine5).2.2 [[okFrame, okFrame, okFrame]]
    (initState 1 params0) (by decide)
  exact ⟨h0, h2.1, h2.2⟩

end RigLoc
